import Mathlib

/-!
# Parking management system — verification of the payment/settlement core

Shallow embedding of the repository's Python core:

* `src/payment.py` — `PaymentProcessor.read_rfid_card`, `write_rfid_card`,
  `backup_csv_entries` / `rollback_changes`, and `process_payment`;
* `src/dashboard/database.py` — `calculate_payment_amount`, `sync_csv_to_db`;
* `src/car_entry.py` / `src/car_exit.py` — the plate-validation block, the
  plate-buffer voting (`Counter(...).most_common`), and `is_payment_complete`.

Machine-level conventions of the embedding:

* Strings are manipulated as `List Char` (`String.data`) so that every
  operation is structural recursion and evaluates inside the kernel.
* Timestamps of the form `YYYY-MM-DD HH:MM:SS` are parsed into a `PyDateTime`
  record and compared/subtracted through `PyDateTime.toSecs` (seconds on a
  proleptic-Gregorian axis), matching `datetime.strptime` /
  `datetime.__sub__().total_seconds()` on canonical zero-padded strings.
* Python `int` arithmetic is exact, so balances and amounts are Lean `Int`.
  `int(float_hours)` truncates toward zero and `hours % 1 > 0` tests
  non-integrality; both are reproduced exactly on the integral second counts
  the code manipulates (`pyHoursCeil`).
* CSV files are lists of rows, a row being a `List String`; Python's
  `IndexError` on `row[i]` is modelled explicitly wherever the code can hit it.
* The serial link is a list of timed text lines; `time.time()` deadlines become
  comparisons on the attached arrival times.
-/

/-! ## Python string primitives -/

/-- Python `str.isspace` on the ASCII range (space, tab, LF, CR, VT, FF). -/
def pyIsSpace (c : Char) : Bool :=
  c == ' ' || c == '\t' || c == '\n' || c == '\r'
    || c.toNat == 11 || c.toNat == 12

/-- Python `str.strip()` (no argument): remove whitespace at both ends. -/
def pyStrip (l : List Char) : List Char :=
  ((l.dropWhile pyIsSpace).reverse.dropWhile pyIsSpace).reverse

/-- Python `str.isprintable` restricted to the ASCII traffic the serial link
carries: true for characters from space (0x20) up to tilde (0x7E). -/
def pyIsPrintable (c : Char) : Bool :=
  32 ≤ c.toNat && c.toNat ≤ 126

/-- ASCII decimal digit. -/
def isDigitChar (c : Char) : Bool :=
  '0' ≤ c && c ≤ '9'

/-- ASCII uppercase letter. -/
def isUpperAlpha (c : Char) : Bool :=
  'A' ≤ c && c ≤ 'Z'

/-- Digits to number, assuming `isDigitChar` holds of every element. -/
def digitsToNat (l : List Char) : Nat :=
  l.foldl (fun a c => a * 10 + (c.toNat - 48)) 0

/-- Python `int(s)`: optional surrounding whitespace, an optional sign, then a
non-empty run of ASCII digits (underscore grouping is not used by this code). -/
def pyInt (l : List Char) : Option Int :=
  let t := pyStrip l
  let (neg, core) :=
    match t with
    | '-' :: rest => (true, rest)
    | '+' :: rest => (false, rest)
    | rest => (false, rest)
  if core.length > 0 && core.all isDigitChar then
    some (if neg then -(digitsToNat core : Int) else (digitsToNat core : Int))
  else
    none

/-- Python `sep.split(c)` for a one-character separator: every occurrence
separates, empty parts preserved. -/
def pySplit (sep : Char) : List Char → List (List Char)
  | [] => [[]]
  | c :: rest =>
    let parts := pySplit sep rest
    if c == sep then
      [] :: parts
    else
      match parts with
      | p :: ps => (c :: p) :: ps
      | [] => [[c]]

/-- Whether `pat` occurs as a contiguous run inside `l` (Python `pat in s`). -/
def listContains (pat : List Char) : List Char → Bool
  | [] => pat.isEmpty
  | c :: rest => (pat.isPrefixOf (c :: rest)) || listContains pat rest

/-- Index of the first occurrence of `pat` (Python `s.find(pat)` when the
pattern is present). -/
def listFindIdx (pat : List Char) : List Char → Nat
  | [] => 0
  | c :: rest => if pat.isPrefixOf (c :: rest) then 0 else listFindIdx pat rest + 1

/-! ## Timestamps -/

/-- A parsed `datetime` (what `datetime.strptime(_, '%Y-%m-%d %H:%M:%S')`
produces): calendar date plus time of day. -/
structure PyDateTime where
  year : Nat
  month : Nat
  day : Nat
  hour : Nat
  minute : Nat
  second : Nat
deriving Repr, DecidableEq

/-- Leap-year rule of the Gregorian calendar. -/
def isLeap (y : Nat) : Bool :=
  (y % 4 == 0 && y % 100 != 0) || y % 400 == 0

/-- Days in a month, as `datetime` validates them. -/
def daysInMonth (y m : Nat) : Nat :=
  if m == 2 then (if isLeap y then 29 else 28)
  else if m == 4 || m == 6 || m == 9 || m == 11 then 30
  else 31

/-- Days from a fixed origin to the given civil date (standard days-from-civil
computation); only differences of these values are ever used. -/
def daysFromCivil (y m d : Nat) : Nat :=
  let y' := if m ≤ 2 then y + 4799 else y + 4800
  let m' := if m ≤ 2 then m + 9 else m - 3
  365 * y' + y' / 4 - y' / 100 + y' / 400 + (153 * m' + 2) / 5 + d - 1

/-- Seconds on a linear axis; `a - b` in the code is
`(toSecs a : Int) - toSecs b` (exact, since these datetimes have second
resolution). -/
def PyDateTime.toSecs (t : PyDateTime) : Nat :=
  daysFromCivil t.year t.month t.day * 86400
    + t.hour * 3600 + t.minute * 60 + t.second

/-- Renders `n` zero-padded to `w` digits, as `strftime` does. -/
def padNum (w n : Nat) : List Char :=
  let s := (toString n).data
  List.replicate (w - s.length) '0' ++ s

/-- `datetime.strftime('%Y-%m-%d %H:%M:%S')`. -/
def PyDateTime.fmt (t : PyDateTime) : String :=
  String.mk (padNum 4 t.year ++ '-' :: padNum 2 t.month ++ '-' :: padNum 2 t.day
    ++ ' ' :: padNum 2 t.hour ++ ':' :: padNum 2 t.minute
    ++ ':' :: padNum 2 t.second)

/-- Reads a fixed-width decimal field. -/
def parseNatField (l : List Char) : Option Nat :=
  if l.length > 0 && l.all isDigitChar then
    some (digitsToNat l)
  else
    none

/-- `datetime.strptime(s, '%Y-%m-%d %H:%M:%S')` on the canonical zero-padded
strings this system reads and writes; `none` models the `ValueError` raised on
anything malformed or out of range. -/
def pyStrptime (s : String) : Option PyDateTime :=
  match pySplit ' ' s.data with
  | [date, tod] =>
    match pySplit '-' date, pySplit ':' tod with
    | [ys, ms, ds], [hs, mins, ss] =>
      if ys.length == 4 && ms.length == 2 && ds.length == 2
          && hs.length == 2 && mins.length == 2 && ss.length == 2 then
        match parseNatField ys, parseNatField ms, parseNatField ds,
            parseNatField hs, parseNatField mins, parseNatField ss with
        | some y, some mo, some d, some h, some mi, some sec =>
          if 1 ≤ mo && mo ≤ 12 && 1 ≤ d && d ≤ daysInMonth y mo
              && h ≤ 23 && mi ≤ 59 && sec ≤ 59 then
            some ⟨y, mo, d, h, mi, sec⟩
          else none
        | _, _, _, _, _, _ => none
      else none
    | _, _ => none
  | _ => none

/-! ## Fee computation

`payment.py` lines 234-241 (inline in `process_payment`):

    hours_spent = (exit_time - entry_time).total_seconds() / 3600
    hours_spent = int(hours_spent) + (1 if (hours_spent % 1) > 0 else 0)
    amount_due = hours_spent * RATE_PER_HOUR

`int()` truncates toward zero and `hours % 1 > 0` holds exactly when the
duration is not a whole number of hours. -/

/-- `RATE_PER_HOUR` in `payment.py` / the `500.0` in `database.py`. -/
def RATE_PER_HOUR : Int := 500

/-- Billable hours as `process_payment` computes them from a signed duration in
seconds: truncating division by 3600 plus one when 3600 does not divide the
duration. -/
def pyHoursCeil (durSecs : Int) : Int :=
  Int.tdiv durSecs 3600 + (if Int.tmod durSecs 3600 = 0 then 0 else 1)

/-- The per-entry amount of `process_payment` (`amount_due`). -/
def settlementAmount (entrySecs exitSecs : Nat) : Int :=
  pyHoursCeil ((exitSecs : Int) - (entrySecs : Int)) * RATE_PER_HOUR

/-- `calculate_payment_amount` from `src/dashboard/database.py`: same ceiling,
then `hours = max(1, hours)`, times 500; `None` when no payment time is
given. -/
def calculate_payment_amount (entrySecs : Nat) (paymentSecs : Option Nat) :
    Option Int :=
  match paymentSecs with
  | none => none
  | some p =>
    let hours := pyHoursCeil ((p : Int) - (entrySecs : Int))
    some (max 1 hours * RATE_PER_HOUR)

/-! ## Plate validation and voting (`car_entry.py` 174-219, `car_exit.py` 190-207)

The validation block is textually identical in both scripts:

    if "RA" in plate_text:
        start_idx = plate_text.find("RA")
        plate_candidate = plate_text[start_idx:]
        if len(plate_candidate) >= 7:
            plate_candidate = plate_candidate[:7]
            prefix, digits, suffix = plate_candidate[:3], plate_candidate[3:6], plate_candidate[6]
            if (prefix.isalpha() and prefix.isupper() and
                digits.isdigit() and suffix.isalpha() and suffix.isupper()):
                plate_buffer.append(plate_candidate)

On the ASCII alphabet produced by the OCR whitelist, `isalpha() and isupper()`
is "every character is an uppercase ASCII letter". -/

/-- The accepted candidate for a raw recognized string, or `none` when the
string is discarded (buffer untouched). -/
def plateCandidate (text : List Char) : Option (List Char) :=
  if listContains "RA".data text then
    if 7 ≤ (text.drop (listFindIdx "RA".data text)).length then
      if (((text.drop (listFindIdx "RA".data text)).take 7).take 3).all
            isUpperAlpha
          && ((((text.drop (listFindIdx "RA".data text)).take 7).drop 3).take
            3).all isDigitChar
          && (((text.drop (listFindIdx "RA".data text)).take 7).drop 6).all
            isUpperAlpha then
        some ((text.drop (listFindIdx "RA".data text)).take 7)
      else none
    else none
  else none

/-- Effect of one raw recognized string on the candidate buffer (the
`plate_buffer.append` guarded by the validation block). -/
def bufferStep (buf : List String) (text : String) : List String :=
  match plateCandidate text.data with
  | some p => buf ++ [String.mk p]
  | none => buf

/-- Modelled from the spec: the claim's reading of the format rule — the string
contains the 2-letter region marker and the 7 characters *following* the
marker match `[A-Z]{3}[0-9]{3}[A-Z]` (at some occurrence of the marker). Used
only to compare the claim against `plateCandidate`. -/
def specPlateRule : List Char → Bool
  | [] => false
  | c :: rest =>
    (List.isPrefixOf "RA".data (c :: rest)
      && (let w := ((c :: rest).drop 2).take 7
          w.length == 7 && (w.take 3).all isUpperAlpha
            && ((w.drop 3).take 3).all isDigitChar
            && (w.drop 6).all isUpperAlpha))
    || specPlateRule rest

/-- `Counter(buffer).most_common(1)[0][0]`: the element of maximal
multiplicity, ties resolved in favour of the earliest first occurrence
(`heapq.nlargest` is stable over the counter's insertion order). -/
def counterMostCommon (l : List String) : Option String :=
  match l with
  | [] => none
  | x :: _ =>
    some (l.foldl (fun best y => if l.count best < l.count y then y else best) x)

/-- One insertion into the plate buffer followed by the threshold check
(threshold 2 on the entry path, 3 on the exit path): returns the new buffer
and the emitted candidate, if any. -/
def voterStep (thr : Nat) (buf : List String) (c : String) :
    List String × Option String :=
  let buf' := buf ++ [c]
  if thr ≤ buf'.length then ([], counterMostCommon buf')
  else (buf', none)

/-- Runs the voter over a stream of valid candidates, collecting emissions. -/
def runVoter (thr : Nat) (buf : List String) :
    List String → List String × List String
  | [] => (buf, [])
  | c :: cs =>
    match voterStep thr buf c with
    | (buf', none) => runVoter thr buf' cs
    | (buf', some v) =>
      let r := runVoter thr buf' cs
      (r.1, v :: r.2)

/-! ## `is_payment_complete` (`car_exit.py` 119-151) -/

/-- `int(latest_entry[1]) == 1` with its failure modes: a missing column
(`IndexError`) or an unparsable status (`ValueError`) lands in the blanket
handler and yields `False`. -/
def ipcStatus (latest : List String) : Bool :=
  match latest.get? 1 with
  | none => false
  | some s =>
    match pyInt s.data with
    | none => false
    | some v => v == 1

/-- Body of `is_payment_complete` once the CSV header has been skipped: any
empty row raises `IndexError` in the `row[0]` comprehension (blanket handler,
`False`); otherwise the status of the last row whose first cell equals the
plate decides. -/
def ipcRows (rows : List (List String)) (plate : String) : Bool :=
  if rows.any List.isEmpty then false
  else
    match (rows.filter (fun r => r.headD "" == plate)).getLast? with
    | none => false
    | some latest => ipcStatus latest

/-- `is_payment_complete(plate_number)`: `none` models any failure to open or
read the CSV file, and an empty file makes `next(reader)` raise
`StopIteration`; both land in the `except` clause and return `False`. -/
def is_payment_complete (file : Option (List (List String))) (plate : String) :
    Bool :=
  match file with
  | none => false
  | some [] => false
  | some (_ :: dataRows) => ipcRows dataRows plate

/-! ## `read_rfid_card` (`payment.py` 70-122)

The serial input is a list of `(arrivalTime, line)` pairs in arrival order;
`readline().decode().strip()` has already been applied conceptually — we apply
the `strip` here. The outer loop runs until 5 time units after its start
(taken as time 0); after a successful parse the inner loop waits until 2 time
units after the parse for a literal `READY`. -/

/-- Parse attempt on one line of the outer loop. `none` covers every way the
line is skipped: no comma, debug framing (leading `[`), more than one comma
(unpacking `ValueError`), or a balance that does not survive
`int(''.join(c for c in balance if c.isprintable()))`. -/
def parseCardLine (line : String) : Option (String × Int) :=
  let l := pyStrip line.data
  if listContains ",".data l && !(List.isPrefixOf "[".data l) then
    match pySplit ',' l with
    | [p, b] =>
      match pyInt ((pyStrip b).filter pyIsPrintable) with
      | some n => some (String.mk (pyStrip p), n)
      | none => none
    | _ => none
  else none

/-- The inner `READY` wait: consumes lines arriving before `deadline`; `true`
on the first one that strips to `READY`, `false` when the next line arrives at
or after the deadline (or never). -/
def waitReady (deadline : Nat) : List (Nat × String) → Bool
  | [] => false
  | (t, line) :: rest =>
    if t < deadline then
      if pyStrip line.data = "READY".data then true
      else waitReady deadline rest
    else false

/-- `read_rfid_card`: scans arriving lines while the clock is under 5; on the
first line that parses as card data, waits for `READY` until 2 units after the
parse — a missing acknowledgment returns `(None, None)` immediately. -/
def read_rfid_card : List (Nat × String) → Option (String × Int)
  | [] => none
  | (t, line) :: rest =>
    if t < 5 then
      match parseCardLine line with
      | some pb => if waitReady (t + 2) rest then some pb else none
      | none => read_rfid_card rest
    else none

/-! ## Relational store and the Reconciler merge (`dashboard/database.py` 43-106)

A `Session` is a row of `vehicle_logs`; timestamps are stored as their
`toSecs` value (SQLite equality on the stored datetimes coincides with
equality of these). -/

structure Session where
  id : Nat
  plate : String
  entryTime : Nat
  exitTime : Option Nat
  paymentStatus : Int
  paymentTime : Option Nat
  paymentAmount : Option Int
deriving Repr, DecidableEq

structure DBState where
  sessions : List Session
  nextId : Nat
deriving Repr, DecidableEq

/-- The `SELECT ... WHERE plate_number = ? AND entry_time = ?` lookup
(`fetchone`: first matching row). -/
def findSession (p : String) (et : Nat) (db : DBState) : Option Session :=
  db.sessions.find? (fun s => s.plate == p && s.entryTime == et)

/-- One CSV record as `csv.DictReader` hands it to `sync_csv_to_db`:
the four columns of `plates_log.csv`, still raw strings. -/
structure LogRow where
  plate : String
  status : String
  ts : String
  payTs : String
deriving Repr, DecidableEq

/-- The parsing prefix of one loop iteration of `sync_csv_to_db`:
`datetime.strptime` on `Timestamp`, `strptime`-if-truthy on
`Payment Timestamp`, `int` on `Payment Status`. `none` models the exception
escaping to the `except` clause. -/
def parseRow (r : LogRow) : Option (Nat × Option Nat × Int) :=
  match pyStrptime r.ts with
  | none => none
  | some et =>
    match (if r.payTs = "" then some none
        else
          match pyStrptime r.payTs with
          | none => none
          | some p => some (some p.toSecs)) with
    | none => none
    | some payS =>
      match pyInt r.status.data with
      | none => none
      | some st => some (et.toSecs, payS, st)

/-- Processing of one CSV row inside `sync_csv_to_db`'s loop: parse, look the
key up, insert when absent, update when the log says paid and the store says
unpaid; otherwise leave the store alone. Returns the new store and whether the
row caused an insert / an update. -/
def syncRow (r : LogRow) (db : DBState) : Option (DBState × Bool × Bool) :=
  match parseRow r with
  | none => none
  | some (etS, payS, st) =>
    let amount := calculate_payment_amount etS payS
    match findSession r.plate etS db with
    | none =>
      some (⟨db.sessions
          ++ [⟨db.nextId, r.plate, etS, none, st, payS, amount⟩],
        db.nextId + 1⟩, true, false)
    | some ex =>
      if st == 1 && ex.paymentStatus == 0 then
        some (⟨db.sessions.map (fun s =>
          if s.id == ex.id then
            Session.mk s.id s.plate s.entryTime s.exitTime st payS amount
          else s), db.nextId⟩, false, true)
      else
        some (db, false, false)

/-- The loop of `sync_csv_to_db` over all records, counting inserts and
updates; `none` propagates an exception. -/
def syncRows : List LogRow → DBState → Option (DBState × Nat × Nat)
  | [], db => some (db, 0, 0)
  | r :: rest, db =>
    match syncRow r db with
    | none => none
    | some (db', i, u) =>
      match syncRows rest db' with
      | none => none
      | some (db'', is, us) =>
        some (db'', (if i then 1 else 0) + is, (if u then 1 else 0) + us)

/-- `sync_csv_to_db`: on any exception the surrounding `try` rolls the whole
transaction back, leaving the store as it was with no effective mutation. -/
def sync_csv_to_db (rows : List LogRow) (db : DBState) : DBState × Nat × Nat :=
  (syncRows rows db).getD (db, 0, 0)

/-! ## `process_payment` (`payment.py` 181-338)

The settlement transaction. The environment injects the outcome of each
fallible external step:

* `tagWriteOk` — the first `write_rfid_card` (the debit) is acknowledged
  `[UPDATED]`;
* `csvWriteOk` — the `open(CSV_FILE, 'w')` rewrite in step 2 succeeds
  (a failure is modelled as atomic: the file keeps its previous content);
* `dbOk` — the relational `UPDATE`/`commit` succeeds (on failure the code
  catches the exception itself, calls `db.rollback()` and *continues on the
  success path*);
* `compWriteOk` — the compensating `write_rfid_card` in the inner `except`
  succeeds;
* `rollbackWriteOk` — the file rewrite inside `rollback_changes` succeeds.

`backup_csv_entries(rows)` stores `rows.copy()` — a *shallow* copy, so the
backup holds the very row objects the code then pads (`row.extend`) and marks
paid (`valid_entries[i][1] = '1'`). A `Slot` tracks one data row with both
views: `ve` is its entry in `valid_entries` (`none` for a row skipped for a
blank first cell), `mem` is the object reachable from `original_entries`, and
`aliased` records whether the two are the same object (padded and exact-width
rows) or not (over-wide rows, where slicing made a fresh list). -/

structure Slot where
  ve : Option (List String)
  mem : List String
  aliased : Bool
deriving Repr, DecidableEq

/-- Result of assigning `ve' := ve` with aliasing respected. -/
def Slot.update (s : Slot) (ve' : List String) : Slot :=
  ⟨some ve', if s.aliased then ve' else s.mem, s.aliased⟩

/-- The validate-and-clean loop (`payment.py` 210-220). `.inl mems` models the
`IndexError` raised by `row[0]` on an empty row: `mems` is the data-row list
as `original_entries` sees it at that moment (rows already processed keep
their in-place padding, rows not yet reached are untouched). -/
def cleanRows (expected : Nat) :
    List (List String) → Sum (List (List String)) (List Slot)
  | [] => .inr []
  | r :: rest =>
    match r with
    | [] => .inl ([] :: rest)
    | c :: _ =>
      let slot : Slot :=
        if r.length < expected then
          let r' := r ++ List.replicate (expected - r.length) ""
          ⟨some r', r', true⟩
        else if expected < r.length then
          ⟨some (r.take expected), r, false⟩
        else
          ⟨some r, r, true⟩
      if (pyStrip c.data).isEmpty then
        match cleanRows expected rest with
        | .inl mems => .inl (r :: mems)
        | .inr slots => .inr (⟨none, r, true⟩ :: slots)
      else
        match cleanRows expected rest with
        | .inl mems => .inl (slot.mem :: mems)
        | .inr slots => .inr (slot :: slots)

/-- Outcome of testing one `valid_entries` row in the unpaid-entry scan
(`payment.py` 227-245): `err` is an uncaught `IndexError` (the inner
`try` only catches `ValueError`), `matchedBad` a matching row whose
timestamp fails `strptime` (sets `found` but contributes nothing),
`matched` carries the parsed entry time and this entry's `amount_due`. -/
inductive MatchRes where
  | err
  | nomatch
  | matchedBad
  | matched (entrySecs : Nat) (amount : Int)
deriving Repr, DecidableEq

/-- `if row[0] == plate and row[1] == '0':` then fee computation; evaluation
order and short-circuiting as in the source. -/
def entryMatch (plate : String) (nowS : Nat) (ve : List String) : MatchRes :=
  match ve.get? 0 with
  | none => .err
  | some c0 =>
    if c0 == plate then
      match ve.get? 1 with
      | none => .err
      | some c1 =>
        if c1 == "0" then
          match ve.get? 2 with
          | none => .err
          | some c2 =>
            match pyStrptime c2 with
            | none => .matchedBad
            | some et =>
              .matched et.toSecs
                (pyHoursCeil ((nowS : Int) - (et.toSecs : Int)) * RATE_PER_HOUR)
        else .nomatch
    else .nomatch

/-- The unpaid-entry scan over `valid_entries`: `none` is an uncaught
`IndexError`; otherwise the `found` flag and `entries_to_update` in order as
`(entrySecs, amount)` pairs. -/
def scanEntries (plate : String) (nowS : Nat) :
    List (List String) → Option (Bool × List (Nat × Int))
  | [] => some (false, [])
  | ve :: rest =>
    match entryMatch plate nowS ve with
    | .err => none
    | .nomatch => scanEntries plate nowS rest
    | .matchedBad =>
      (scanEntries plate nowS rest).map (fun fu => (true, fu.2))
    | .matched et amt =>
      (scanEntries plate nowS rest).map (fun fu => (true, (et, amt) :: fu.2))

/-- The paid-marking loop (`payment.py` 275-278): for each entry to update,
`valid_entries[i][1] = '1'` then `valid_entries[i][3] = <payment ts>`.
`.inl` models an `IndexError` part-way (possible when the header is narrower
than four columns), carrying the slots in their partially-mutated state. -/
def applySlotUpdates (plate : String) (nowS : Nat) (fmtNow : String) :
    List Slot → Sum (List Slot) (List Slot)
  | [] => .inr []
  | ⟨none, mem, al⟩ :: rest =>
    match applySlotUpdates plate nowS fmtNow rest with
    | .inl bad => .inl (⟨none, mem, al⟩ :: bad)
    | .inr good => .inr (⟨none, mem, al⟩ :: good)
  | ⟨some ve, mem, al⟩ :: rest =>
    match entryMatch plate nowS ve with
    | .matched _ _ =>
      if ve.length ≤ 1 then .inl (⟨some ve, mem, al⟩ :: rest)
      else
        let ve1 := ve.set 1 "1"
        if ve.length ≤ 3 then
          .inl (Slot.update ⟨some ve, mem, al⟩ ve1 :: rest)
        else
          let ve2 := ve1.set 3 fmtNow
          match applySlotUpdates plate nowS fmtNow rest with
          | .inl bad => .inl (Slot.update ⟨some ve, mem, al⟩ ve2 :: bad)
          | .inr good => .inr (Slot.update ⟨some ve, mem, al⟩ ve2 :: good)
    | _ =>
      match applySlotUpdates plate nowS fmtNow rest with
      | .inl bad => .inl (⟨some ve, mem, al⟩ :: bad)
      | .inr good => .inr (⟨some ve, mem, al⟩ :: good)

/-- The relational update of step 5 (`payment.py` 289-306): for each settled
entry, `UPDATE vehicle_logs SET payment_status = 1, payment_time, exit_time,
payment_amount WHERE plate_number = ? AND entry_time = ?`. -/
def dbMarkPaid (plate : String) (nowS : Nat) (upds : List (Nat × Int))
    (db : DBState) : DBState :=
  upds.foldl (fun d u =>
    ⟨d.sessions.map (fun s =>
      if s.plate == plate && s.entryTime == u.1 then
        Session.mk s.id s.plate s.entryTime (some nowS) 1 (some nowS)
          (some u.2)
      else s), d.nextId⟩) db

/-- Failure-injection switches for the external steps of one settlement. -/
structure Env where
  tagWriteOk : Bool
  csvWriteOk : Bool
  dbOk : Bool
  compWriteOk : Bool
  rollbackWriteOk : Bool
deriving Repr, DecidableEq

/-- State touched by a settlement: the CSV log (header row included), the
relational store, and the tag's stored balance. -/
structure PState where
  csv : List (List String)
  db : DBState
  tag : Int
deriving Repr, DecidableEq

/-- Observable actions of one settlement run, in order. `fileWrite` and
`dbCommit` are emitted only when the write actually lands. -/
inductive Act where
  | sigI
  | tagWrite (bal : Int) (ok : Bool)
  | fileWrite (content : List (List String))
  | dbCommit
deriving Repr, DecidableEq

/-- The inner `except` clause (`payment.py` 317-327): a compensating
`write_rfid_card` with the pre-debit balance, then `rollback_changes()`,
which rewrites the file from `original_entries` — the header plus the `mem`
view of every data row. -/
def compensate (env : Env) (header : List String) (slots : List Slot)
    (st : PState) (acts : List Act) (origBal : Int) : PState × List Act :=
  let stc := if env.compWriteOk then { st with tag := origBal } else st
  let acts1 := acts ++ [Act.tagWrite origBal env.compWriteOk]
  let content := header :: slots.map (·.mem)
  if env.rollbackWriteOk then
    ({ stc with csv := content }, acts1 ++ [Act.fileWrite content])
  else (stc, acts1)

/-- `PaymentProcessor.process_payment(plate, balance)` for one settlement run;
`now` is `datetime.now()` at entry (`exit_time` in the code). The CSV file is
assumed readable (its content is `st.csv`); `self.ser` is connected, as
guaranteed by `run()`. Returns the final state and the action trace. -/
def process_payment (env : Env) (now : PyDateTime) (plate : String)
    (balance : Int) (st : PState) : PState × List Act :=
  if st.csv.length < 2 then (st, [])
  else
    match st.csv with
    | [] => (st, [])
    | header :: dataRows =>
      let expected := header.length
      let nowS := now.toSecs
      match cleanRows expected dataRows with
      | .inl mems =>
        -- IndexError in the validation loop → outer except → rollback only
        if env.rollbackWriteOk then
          ({ st with csv := header :: mems }, [Act.fileWrite (header :: mems)])
        else (st, [])
      | .inr slots =>
        match scanEntries plate nowS (slots.filterMap (·.ve)) with
        | none =>
          -- IndexError in the unpaid-entry scan → outer except → rollback only
          let mems := slots.map (·.mem)
          if env.rollbackWriteOk then
            ({ st with csv := header :: mems },
              [Act.fileWrite (header :: mems)])
          else (st, [])
        | some found_upds =>
          let found := found_upds.1
          let upds := found_upds.2
          if !found then (st, [])
          else
            let total := (upds.map (·.2)).sum
            if balance < total then (st, [Act.sigI])
            else
              let newBal := balance - total
              if !env.tagWriteOk then (st, [Act.tagWrite newBal false])
              else
                let st1 := { st with tag := newBal }
                let acts0 := [Act.tagWrite newBal true]
                match applySlotUpdates plate nowS now.fmt slots with
                | .inl partialSlots =>
                  compensate env header partialSlots st1 acts0 balance
                | .inr slots' =>
                  let content := header :: slots'.filterMap (·.ve)
                  if !env.csvWriteOk then
                    compensate env header slots' st1 acts0 balance
                  else
                    let st2 := { st1 with csv := content }
                    let acts1 := acts0 ++ [Act.fileWrite content]
                    if env.dbOk then
                      ({ st2 with db := dbMarkPaid plate nowS upds st2.db },
                        acts1 ++ [Act.dbCommit])
                    else
                      -- `except` at line 308 swallows the failure: the code
                      -- prints success and keeps every other mutation
                      (st2, acts1)

/-- A store mutation visible in the trace. -/
def Act.isStoreMutation : Act → Bool
  | .fileWrite _ => true
  | .dbCommit => true
  | _ => false

/-- A positively acknowledged tag write. -/
def Act.isTagAck : Act → Bool
  | .tagWrite _ ok => ok
  | _ => false

/-! ## Derived views and sample data used by the statements -/

/-- The settlement's read-only analysis phase on a CSV content: header split,
validation loop, unpaid-entry scan. `none` when the analysis itself raises
(empty file, empty row, too-narrow matching row). -/
def settlementScan (now : PyDateTime) (plate : String)
    (csv : List (List String)) : Option (Bool × List (Nat × Int)) :=
  match csv with
  | [] => none
  | header :: dataRows =>
    match cleanRows header.length dataRows with
    | .inl _ => none
    | .inr slots => scanEntries plate now.toSecs (slots.filterMap (·.ve))

/-- `total_amount_due` for a computed `entries_to_update` list. -/
def totalDue (upds : List (Nat × Int)) : Int :=
  (upds.map (·.2)).sum

/-- Scans a trace and checks that every store mutation is preceded by a
positively acknowledged tag write (the accumulator records whether an
acknowledgment has been seen). -/
def storeMutationsGuarded : List Act → Bool → Bool
  | [], _ => true
  | a :: rest, seen =>
    (!a.isStoreMutation || seen)
      && storeMutationsGuarded rest (seen || a.isTagAck)

/-- Index of the first occurrence of `x` (length of the list if absent);
used to state the voter's first-seen tie-breaking. -/
def firstIdx (x : String) : List String → Nat
  | [] => 0
  | y :: rest => if y == x then 0 else firstIdx x rest + 1

/-- After a successful merge pass, each log record's key is present in the
store and, if the record is paid, the first matching session is no longer
unpaid — exactly the state in which `sync_csv_to_db` mutates nothing. -/
def RowSettled (r : LogRow) (db : DBState) : Prop :=
  ∀ etS payS st, parseRow r = some (etS, payS, st) →
    ∃ s, findSession r.plate etS db = some s
      ∧ (st = 1 → s.paymentStatus ≠ 0)

/-- The header `car_entry.py` writes to a fresh `plates_log.csv`. -/
def sampleHeader : List String :=
  ["Plate Number", "Payment Status", "Timestamp", "Payment Timestamp"]

/-- An unpaid log row for plate `RAB123C`, entered 2024-01-01 10:00:00. -/
def sampleUnpaid : List String :=
  ["RAB123C", "0", "2024-01-01 10:00:00", ""]

/-- The same row after the settlement of 2024-01-01 10:05:00 marked it paid. -/
def samplePaid : List String :=
  ["RAB123C", "1", "2024-01-01 10:00:00", "2024-01-01 10:05:00"]

/-- The settlement instant 2024-01-01 10:05:00 used in the concrete runs. -/
def sampleNow : PyDateTime := ⟨2024, 1, 1, 10, 5, 0⟩

/-- The matching open session in the relational store. -/
def sampleSession : Session :=
  ⟨1, "RAB123C", PyDateTime.toSecs ⟨2024, 1, 1, 10, 0, 0⟩, none, 0, none, none⟩

/-- System state before the concrete settlement runs: one unpaid entry in the
log, its session in the store, 1000 on the tag. -/
def sampleState : PState :=
  ⟨[sampleHeader, sampleUnpaid], ⟨[sampleSession], 2⟩, 1000⟩

/-- A log whose data region holds a three-column row followed by a blank line:
the validation loop pads the first in place, then raises `IndexError` on the
second. -/
def raggedState : PState :=
  ⟨[sampleHeader, ["RAB123C", "0", "2024-01-01 10:00:00"], []],
    ⟨[sampleSession], 2⟩, 1000⟩

/-! # Theorems -/

/-! Sanity checks of the primitives, evaluated by the kernel. -/

example : pyHoursCeil 300 = 1 := by decide
example : pyHoursCeil 0 = 0 := by decide
example : pyHoursCeil 3600 = 1 := by decide
example : pyHoursCeil 3601 = 2 := by decide
example : pyHoursCeil (-1800) = 1 := by decide
example : pyHoursCeil (-5400) = 0 := by decide
example : pyStrptime "2024-01-01 10:00:00" = some ⟨2024, 1, 1, 10, 0, 0⟩ := by
  decide
example : pyStrptime "2024-13-01 10:00:00" = none := by decide
example : pyStrptime "bogus" = none := by decide
example : (PyDateTime.fmt ⟨2024, 1, 1, 10, 5, 0⟩) = "2024-01-01 10:05:00" := by
  decide
example : pyInt " -50".data = some (-50) := by decide
example : pyInt "12a".data = none := by decide
example : pySplit ',' "a,b".data = [['a'], ['b']] := by decide
example : pySplit ',' "a,b,c".data = [['a'], ['b'], ['c']] := by decide
example : listContains "RA".data "XRAB".data = true := by decide
example : listFindIdx "RA".data "XRAB".data = 1 := by decide
example : plateCandidate "RAB123C".data = some "RAB123C".data := by decide
example : plateCandidate "XXRAB123CYY".data = some "RAB123C".data := by decide
example : plateCandidate "RAABC123D".data = none := by decide
example : specPlateRule "RAABC123D".data = true := by decide
example : counterMostCommon ["A", "B"] = some "A" := by decide
example : runVoter 2 [] ["RAB123C", "RAB123C", "RAX999Z"]
    = (["RAX999Z"], ["RAB123C"]) := by decide
example : read_rfid_card [(0, "RAB123C,1000"), (1, "READY")]
    = some ("RAB123C", 1000) := by decide
example : read_rfid_card [(0, "RAB123C,-50"), (1, "READY")]
    = some ("RAB123C", -50) := by decide
example : read_rfid_card [(0, "RAB123C,1000"), (3, "x")] = none := by decide
example : read_rfid_card [(6, "RAB123C,1000"), (7, "READY")] = none := by decide
example : ipcRows [["P", "0", "a", ""], ["P", "1", "b", "c"]] "P" = true := by
  decide

/-! ## Fee computation: claims C4 and C9 -/

theorem pyHoursCeil_natCast (d : Nat) :
    pyHoursCeil (d : Int) = (((d + 3599) / 3600 : Nat) : Int) := by
  have h1 : Int.tdiv (d : Int) 3600 = ((d / 3600 : Nat) : Int) := rfl
  have h2 : Int.tmod (d : Int) 3600 = ((d % 3600 : Nat) : Int) := rfl
  rw [pyHoursCeil, h1, h2]
  by_cases h : d % 3600 = 0
  · have hq : d / 3600 = (d + 3599) / 3600 := by omega
    simp [h, hq]
  · have hne : ((d % 3600 : Nat) : Int) ≠ 0 := by exact_mod_cast h
    have hq : d / 3600 + 1 = (d + 3599) / 3600 := by omega
    rw [if_neg hne]
    exact_mod_cast hq

theorem settlementAmount_eq (e t : Nat) (h : e ≤ t) :
    settlementAmount e t = ((((t - e) + 3599) / 3600 : Nat) : Int) * RATE_PER_HOUR := by
  rw [settlementAmount]
  have hd : (t : Int) - (e : Int) = ((t - e : Nat) : Int) := by omega
  rw [hd, pyHoursCeil_natCast]

/-- C4 (amended): for a *strictly* positive duration the settlement fee equals
the ceiling of the duration in hours times the hourly rate, is a positive
multiple of the rate, and is monotone in the reference time; the original
claim's "at least one hour's rate even for near-zero durations" fails at
duration exactly zero (see the counterexample), where the inline computation
of `process_payment` yields 0 rather than `max 1 ⌈0⌉ * rate = 500`. -/
theorem settlement_fee_props (e t1 t2 : Nat) (h1 : e < t1) (h12 : t1 ≤ t2) :
    settlementAmount e t1
        = ((((t1 - e) + 3599) / 3600 : Nat) : Int) * RATE_PER_HOUR
      ∧ RATE_PER_HOUR ∣ settlementAmount e t1
      ∧ RATE_PER_HOUR ≤ settlementAmount e t1
      ∧ settlementAmount e t1 ≤ settlementAmount e t2 := by
  have he1 : e ≤ t1 := Nat.le_of_lt h1
  have he2 : e ≤ t2 := le_trans he1 h12
  have q1 : settlementAmount e t1
      = ((((t1 - e) + 3599) / 3600 : Nat) : Int) * RATE_PER_HOUR :=
    settlementAmount_eq e t1 he1
  have q2 : settlementAmount e t2
      = ((((t2 - e) + 3599) / 3600 : Nat) : Int) * RATE_PER_HOUR :=
    settlementAmount_eq e t2 he2
  refine ⟨q1, ⟨_, by rw [q1, mul_comm]⟩, ?_, ?_⟩
  · rw [q1]
    have hge : 1 ≤ ((t1 - e) + 3599) / 3600 := by omega
    have h1' : (1 : Int) ≤ (((t1 - e) + 3599) / 3600 : Nat) := by
      exact_mod_cast hge
    have := mul_le_mul_of_nonneg_right h1'
      (show (0 : Int) ≤ RATE_PER_HOUR by decide)
    simpa using this
  · rw [q1, q2]
    have hmono : ((t1 - e) + 3599) / 3600 ≤ ((t2 - e) + 3599) / 3600 := by omega
    have hm' : ((((t1 - e) + 3599) / 3600 : Nat) : Int)
        ≤ (((t2 - e) + 3599) / 3600 : Nat) := by exact_mod_cast hmono
    exact mul_le_mul_of_nonneg_right hm'
      (show (0 : Int) ≤ RATE_PER_HOUR by decide)

theorem settlement_fee_props_witness :
    settlementAmount 0 300 = ((((300 - 0) + 3599) / 3600 : Nat) : Int) * RATE_PER_HOUR
      ∧ RATE_PER_HOUR ∣ settlementAmount 0 300
      ∧ RATE_PER_HOUR ≤ settlementAmount 0 300
      ∧ settlementAmount 0 300 ≤ settlementAmount 0 7200 :=
  settlement_fee_props 0 300 7200 (by decide) (by decide)

/-- C4 counterexample: at duration exactly zero (entry time equal to the
settlement time, both valid timestamps), the settlement fee computed inline in
`process_payment` is 0 — not the claimed `max(1, ⌈duration⌉) * rate`, which the
dashboard's `calculate_payment_amount` implements and which gives 500 here. -/
theorem settlement_fee_zero_duration :
    settlementAmount (PyDateTime.toSecs ⟨2024, 1, 1, 10, 0, 0⟩)
        (PyDateTime.toSecs ⟨2024, 1, 1, 10, 0, 0⟩) = 0
      ∧ calculate_payment_amount (PyDateTime.toSecs ⟨2024, 1, 1, 10, 0, 0⟩)
          (some (PyDateTime.toSecs ⟨2024, 1, 1, 10, 0, 0⟩)) = some 500
      ∧ ¬RATE_PER_HOUR ≤ (0 : Int) := by
  refine ⟨?_, ?_, by decide⟩
  · show pyHoursCeil _ * _ = 0
    rw [sub_self]
    decide
  · show some (max 1 (pyHoursCeil _) * _) = some 500
    rw [sub_self]
    decide

/-- C9: for strictly positive durations the inline fee of `process_payment`
and the dashboard's `calculate_payment_amount` agree; at duration exactly zero
the dashboard applies its one-hour minimum (500) while the inline computation
yields 0. -/
theorem inline_fee_refines_dashboard (e r : Nat) (h : e < r) :
    calculate_payment_amount e (some r) = some (settlementAmount e r)
      ∧ settlementAmount e e = 0
      ∧ calculate_payment_amount e (some e) = some RATE_PER_HOUR := by
  have he : e ≤ r := Nat.le_of_lt h
  refine ⟨?_, ?_, ?_⟩
  · show some (max 1 (pyHoursCeil ((r : Int) - e)) * RATE_PER_HOUR) = _
    have hd : (r : Int) - (e : Int) = ((r - e : Nat) : Int) := by omega
    rw [settlementAmount, hd, pyHoursCeil_natCast]
    have hge : 1 ≤ ((r - e) + 3599) / 3600 := by omega
    have hge' : (1 : Int) ≤ ((((r - e) + 3599) / 3600 : Nat) : Int) := by
      exact_mod_cast hge
    rw [max_eq_right hge']
  · show pyHoursCeil _ * _ = 0
    rw [sub_self]
    decide
  · show some (max 1 (pyHoursCeil ((e : Int) - e)) * RATE_PER_HOUR) = _
    rw [sub_self]
    decide

theorem inline_fee_refines_dashboard_witness :
    calculate_payment_amount 0 (some 300) = some (settlementAmount 0 300)
      ∧ settlementAmount 0 0 = 0
      ∧ calculate_payment_amount 0 (some 0) = some RATE_PER_HOUR :=
  inline_fee_refines_dashboard 0 300 (by decide)

/-! ## The settlement transaction: claims C1, C2, C3 -/

/-- C1: a settlement attempt whose analysis finds unpaid entries and whose tag
balance is below the total due mutates nothing — CSV content, relational
store and tag balance are untouched — and emits only the insufficient-balance
signal `'I'` on the link. -/
theorem process_payment_insufficient (env : Env) (now : PyDateTime)
    (plate : String) (balance : Int) (st : PState)
    (upds : List (Nat × Int))
    (hlen : 2 ≤ st.csv.length)
    (hscan : settlementScan now plate st.csv = some (true, upds))
    (hbal : balance < totalDue upds) :
    process_payment env now plate balance st = (st, [Act.sigI]) := by
  rcases hc : st.csv with _ | ⟨header, dataRows⟩
  · rw [hc] at hscan
    simp [settlementScan] at hscan
  · rw [hc] at hscan
    rw [hc] at hlen
    simp only [settlementScan] at hscan
    rcases hclean : cleanRows header.length dataRows with mems | slots
    · rw [hclean] at hscan
      simp at hscan
    · rw [hclean] at hscan
      simp only at hscan
      unfold totalDue at hbal
      have hnl : ¬ dataRows.length + 1 < 2 := by
        simp at hlen
        omega
      simp [process_payment, hc, hclean, hscan, hbal, hnl]

theorem process_payment_insufficient_witness :
    process_payment ⟨true, true, true, true, true⟩ sampleNow "RAB123C" 400
        sampleState = (sampleState, [Act.sigI]) :=
  process_payment_insufficient ⟨true, true, true, true, true⟩ sampleNow
    "RAB123C" 400 sampleState
    [(PyDateTime.toSecs ⟨2024, 1, 1, 10, 0, 0⟩, 500)]
    (by decide) (by decide) (by decide)

/-- C2: when the tag write is confirmed but the relational-store commit fails
(`dbOk = false`), `process_payment` catches the failure at its inner database
handler, keeps the debited tag (500, not the original 1000) and the log rows
already marked paid, performs no compensating tag write (exactly one tag write
appears in the trace), and leaves the store rolled back — contradicting the
claimed compensating write and snapshot restore. -/
theorem process_payment_store_commit_fail :
    (process_payment ⟨true, true, false, true, true⟩ sampleNow "RAB123C" 1000
        sampleState).1.tag = 500
      ∧ (process_payment ⟨true, true, false, true, true⟩ sampleNow "RAB123C"
          1000 sampleState).1.csv = [sampleHeader, samplePaid]
      ∧ (process_payment ⟨true, true, false, true, true⟩ sampleNow "RAB123C"
          1000 sampleState).1.csv ≠ sampleState.csv
      ∧ (process_payment ⟨true, true, false, true, true⟩ sampleNow "RAB123C"
          1000 sampleState).1.db = sampleState.db
      ∧ ((process_payment ⟨true, true, false, true, true⟩ sampleNow "RAB123C"
          1000 sampleState).2.countP fun a =>
            match a with | Act.tagWrite _ _ => true | _ => false) = 1 := by
  decide

/-- C3 counterexample: on a log holding a three-column row followed by a blank
line, the validation loop pads the short row in place, the blank row raises
`IndexError`, and the outer handler's `rollback_changes()` rewrites the log
file — its content changes (the padded row) with no tag write, acknowledged or
otherwise, anywhere in the trace. -/
theorem process_payment_mutates_before_tag_ack :
    storeMutationsGuarded (process_payment ⟨true, true, true, true, true⟩
        sampleNow "RAB123C" 1000 raggedState).2 false = false
      ∧ (process_payment ⟨true, true, true, true, true⟩ sampleNow "RAB123C"
          1000 raggedState).1.csv ≠ raggedState.csv
      ∧ ∀ a ∈ (process_payment ⟨true, true, true, true, true⟩ sampleNow
          "RAB123C" 1000 raggedState).2, a.isTagAck = false := by
  decide

theorem cleanRows_fullWidth (l : List (List String))
    (h : ∀ r ∈ l, r.length = 4) :
    ∃ slots, cleanRows 4 l = .inr slots
      ∧ ∀ s ∈ slots, s.ve = none ∨ ∃ v, s.ve = some v ∧ v.length = 4 := by
  induction l with
  | nil => exact ⟨[], rfl, by simp⟩
  | cons r rest ih =>
    obtain ⟨slots, hs, hp⟩ := ih (fun q hq => h q (List.mem_cons_of_mem _ hq))
    have hr : r.length = 4 := h r (List.mem_cons_self _ _)
    rcases r with _ | ⟨c, cs⟩
    · simp at hr
    · simp only [List.length_cons] at hr
      have hlt : ¬ cs.length + 1 < 4 := by omega
      have hgt : ¬ 4 < cs.length + 1 := by omega
      by_cases hb : (pyStrip c.data).isEmpty
      · refine ⟨⟨none, c :: cs, true⟩ :: slots, ?_, ?_⟩
        · simp [cleanRows, hb, hs]
        · intro s hsm
          rcases List.mem_cons.mp hsm with h1 | h2
          · subst h1; exact Or.inl rfl
          · exact hp s h2
      · refine ⟨⟨some (c :: cs), c :: cs, true⟩ :: slots, ?_, ?_⟩
        · simp [cleanRows, hb, hs, hlt, hgt]
        · intro s hsm
          rcases List.mem_cons.mp hsm with h1 | h2
          · subst h1; exact Or.inr ⟨c :: cs, rfl, by simpa using hr⟩
          · exact hp s h2

theorem entryMatch_ne_err (plate : String) (nowS : Nat) (ve : List String)
    (h : ve.length = 4) : entryMatch plate nowS ve ≠ .err := by
  rcases ve with _ | ⟨a, _ | ⟨b, _ | ⟨c, rest⟩⟩⟩
  · simp at h
  · simp at h
  · simp at h
  · have hrw : entryMatch plate nowS (a :: b :: c :: rest)
        = (if a == plate then
            (if b == "0" then
              (match pyStrptime c with
               | none => MatchRes.matchedBad
               | some et =>
                 MatchRes.matched et.toSecs
                   (pyHoursCeil ((nowS : Int) - (et.toSecs : Int))
                     * RATE_PER_HOUR))
             else MatchRes.nomatch)
           else MatchRes.nomatch) := rfl
    rw [hrw]
    by_cases h0 : a == plate
    · rw [if_pos h0]
      by_cases h1 : b == "0"
      · rw [if_pos h1]
        rcases pyStrptime c with _ | et <;> simp
      · rw [if_neg h1]
        simp
    · rw [if_neg h0]
      simp

theorem scanEntries_fullWidth (plate : String) (nowS : Nat)
    (ves : List (List String)) (h : ∀ v ∈ ves, v.length = 4) :
    ∃ fu, scanEntries plate nowS ves = some fu := by
  induction ves with
  | nil => exact ⟨(false, []), rfl⟩
  | cons v rest ih =>
    obtain ⟨fu, hfu⟩ := ih (fun q hq => h q (List.mem_cons_of_mem _ hq))
    have hv : v.length = 4 := h v (List.mem_cons_self _ _)
    have hne := entryMatch_ne_err plate nowS v hv
    unfold scanEntries
    rcases hm : entryMatch plate nowS v with _ | _ | _ | ⟨et, amt⟩
    · exact absurd hm hne
    · exact ⟨fu, hfu⟩
    · exact ⟨(true, fu.2), by rw [hfu]; rfl⟩
    · exact ⟨(true, (et, amt) :: fu.2), by rw [hfu]; rfl⟩

theorem applySlotUpdates_fullWidth (plate : String) (nowS : Nat) (f : String)
    (slots : List Slot)
    (h : ∀ s ∈ slots, s.ve = none ∨ ∃ v, s.ve = some v ∧ v.length = 4) :
    ∃ out, applySlotUpdates plate nowS f slots = .inr out := by
  induction slots with
  | nil => exact ⟨[], rfl⟩
  | cons s rest ih =>
    obtain ⟨out, hout⟩ := ih (fun q hq => h q (List.mem_cons_of_mem _ hq))
    rcases s with ⟨sve, mem, al⟩
    rcases h ⟨sve, mem, al⟩ (List.mem_cons_self _ _) with hn | ⟨v, hv, hvl⟩
    · simp only at hn
      subst hn
      exact ⟨⟨none, mem, al⟩ :: out, by unfold applySlotUpdates; rw [hout]⟩
    · simp only at hv
      subst hv
      unfold applySlotUpdates
      rcases hm : entryMatch plate nowS v with _ | _ | _ | ⟨et, amt⟩
      · exact ⟨_ :: out, by rw [hout]⟩
      · exact ⟨_ :: out, by rw [hout]⟩
      · exact ⟨_ :: out, by rw [hout]⟩
      · have h1 : ¬ v.length ≤ 1 := by omega
        have h3 : ¬ v.length ≤ 3 := by omega
        rw [if_neg h1, if_neg h3, hout]
        exact ⟨_, rfl⟩

/-- C3 (amended): provided every row of the log — header and data alike — has
exactly the expected four columns, no store mutation (log rewrite or database
commit) ever precedes a positively acknowledged tag write within a settlement
run, and an unacknowledged tag write aborts the run with the state untouched.
Without that proviso the claim fails: a malformed row aborts validation and
the recovery path rewrites the log (normalising short rows) before any tag
write — see the counterexample. -/
theorem process_payment_tag_ack_precedes_store (env : Env) (now : PyDateTime)
    (plate : String) (balance : Int) (st : PState)
    (header : List String) (dataRows : List (List String))
    (hcsv : st.csv = header :: dataRows)
    (hhdr : header.length = 4)
    (hrows : ∀ r ∈ dataRows, r.length = 4) :
    storeMutationsGuarded (process_payment env now plate balance st).2 false
        = true
      ∧ (env.tagWriteOk = false →
          (process_payment env now plate balance st).1 = st) := by
  obtain ⟨slots, hclean, hslots⟩ := cleanRows_fullWidth dataRows hrows
  have hves : ∀ v ∈ slots.filterMap (fun s => s.ve), v.length = 4 := by
    intro v hv
    obtain ⟨s, hs, hveq⟩ := List.mem_filterMap.mp hv
    rcases hslots s hs with hn | ⟨v', hv', hl⟩
    · rw [hn] at hveq; cases hveq
    · rw [hv'] at hveq; cases hveq; exact hl
  obtain ⟨fu, hscan⟩ := scanEntries_fullWidth plate now.toSecs _ hves
  obtain ⟨out, happly⟩ :=
    applySlotUpdates_fullWidth plate now.toSecs now.fmt slots hslots
  rcases fu with ⟨found, upds⟩
  simp only [process_payment, hcsv, hhdr, hclean, hscan, happly]
  by_cases hl2 : (header :: dataRows).length < 2
  · simp only [if_pos hl2]
    simp [storeMutationsGuarded]
  · simp only [if_neg hl2]
    rcases found with _ | _
    · simp [storeMutationsGuarded]
    · simp only [Bool.not_true, Bool.false_eq_true, if_false]
      by_cases hbal : balance < (upds.map (fun x => x.2)).sum
      · simp [hbal, storeMutationsGuarded, Act.isStoreMutation, Act.isTagAck]
      · simp only [hbal, if_false]
        rcases htw : env.tagWriteOk with _ | _
        · simp [storeMutationsGuarded, Act.isStoreMutation, Act.isTagAck]
        · simp only [Bool.not_true, Bool.false_eq_true, if_false]
          rcases hcw : env.csvWriteOk with _ | _
          · simp [compensate, storeMutationsGuarded, Act.isStoreMutation,
              Act.isTagAck]
            rcases hrb : env.rollbackWriteOk with _ | _ <;>
              simp [storeMutationsGuarded, Act.isStoreMutation, Act.isTagAck]
          · rcases hdb : env.dbOk with _ | _ <;>
              simp [storeMutationsGuarded, Act.isStoreMutation, Act.isTagAck]

theorem process_payment_tag_ack_precedes_store_witness :
    storeMutationsGuarded (process_payment ⟨false, true, true, true, true⟩
        sampleNow "RAB123C" 1000 sampleState).2 false = true
      ∧ ((⟨false, true, true, true, true⟩ : Env).tagWriteOk = false →
          (process_payment ⟨false, true, true, true, true⟩ sampleNow "RAB123C"
            1000 sampleState).1 = sampleState) :=
  process_payment_tag_ack_precedes_store ⟨false, true, true, true, true⟩
    sampleNow "RAB123C" 1000 sampleState sampleHeader [sampleUnpaid]
    rfl (by decide) (by decide)

/-! ## The Reconciler merge: claim C5 -/

theorem find?_append_of_none {α} (p : α → Bool) (l1 l2 : List α)
    (h : l1.find? p = none) : (l1 ++ l2).find? p = l2.find? p := by
  induction l1 with
  | nil => simp
  | cons a rest ih =>
    rcases hp : p a with _ | _
    · rw [List.find?_cons_of_neg _ (by simp [hp])] at h
      rw [List.cons_append, List.find?_cons_of_neg _ (by simp [hp])]
      exact ih h
    · rw [List.find?_cons_of_pos _ hp] at h
      cases h

theorem find?_append_of_some {α} (p : α → Bool) (l1 l2 : List α) (x : α)
    (h : l1.find? p = some x) : (l1 ++ l2).find? p = some x := by
  induction l1 with
  | nil => simp at h
  | cons a rest ih =>
    rcases hp : p a with _ | _
    · rw [List.find?_cons_of_neg _ (by simp [hp])] at h
      rw [List.cons_append, List.find?_cons_of_neg _ (by simp [hp])]
      exact ih h
    · rw [List.find?_cons_of_pos _ hp] at h
      rw [List.cons_append, List.find?_cons_of_pos _ hp]
      exact h

theorem find?_map_of_pred_invariant {α} (p : α → Bool) (f : α → α)
    (hf : ∀ a, p (f a) = p a) (l : List α) :
    (l.map f).find? p = (l.find? p).map f := by
  induction l with
  | nil => simp
  | cons a rest ih =>
    rcases hp : p a with _ | _
    · rw [List.map_cons, List.find?_cons_of_neg _ (by simp [hf a, hp]),
        List.find?_cons_of_neg _ (by simp [hp])]
      exact ih
    · rw [List.map_cons, List.find?_cons_of_pos _ (by simp [hf a, hp]),
        List.find?_cons_of_pos _ hp]
      rfl

theorem syncRow_settles (r : LogRow) (db db' : DBState) (i u : Bool)
    (h : syncRow r db = some (db', i, u)) : RowSettled r db' := by
  intro etS payS st hp
  unfold syncRow at h
  rw [hp] at h
  simp only at h
  rcases hf : findSession r.plate etS db with _ | ex
  · rw [hf] at h
    simp only [Option.some.injEq, Prod.mk.injEq] at h
    obtain ⟨h1, -, -⟩ := h
    subst h1
    refine ⟨⟨db.nextId, r.plate, etS, none, st, payS,
      calculate_payment_amount etS payS⟩, ?_, ?_⟩
    · unfold findSession at hf ⊢
      simp only
      rw [find?_append_of_none _ _ _ hf]
      exact List.find?_cons_of_pos _ (by simp)
    · intro hst
      rw [hst]
      simp
  · rw [hf] at h
    simp only at h
    by_cases hc : (st == 1 && ex.paymentStatus == 0) = true
    · rw [if_pos hc] at h
      simp only [Option.some.injEq, Prod.mk.injEq] at h
      obtain ⟨h1, -, -⟩ := h
      subst h1
      simp only [Bool.and_eq_true, beq_iff_eq] at hc
      have hinv : ∀ s : Session,
          ((fun s => s.plate == r.plate && s.entryTime == etS)
            ((fun s => if s.id == ex.id then
              Session.mk s.id s.plate s.entryTime s.exitTime st payS
                (calculate_payment_amount etS payS)
              else s) s))
          = ((fun s => s.plate == r.plate && s.entryTime == etS) s) := by
        intro s
        by_cases hid : (s.id == ex.id) = true <;> simp [hid]
      unfold findSession at hf ⊢
      simp only
      rw [find?_map_of_pred_invariant _ _ hinv, hf]
      refine ⟨_, rfl, ?_⟩
      intro _
      simp only [beq_self_eq_true, if_pos]
      simp [hc.1]
    · rw [if_neg hc] at h
      simp only [Option.some.injEq, Prod.mk.injEq] at h
      obtain ⟨h1, -, -⟩ := h
      subst h1
      exact ⟨ex, hf, fun h1 h0 => hc (by simp [h1, h0])⟩

theorem syncRow_preserves (q r : LogRow) (db db' : DBState) (i u : Bool)
    (h : syncRow r db = some (db', i, u)) (hs : RowSettled q db) :
    RowSettled q db' := by
  intro etS payS st hp
  obtain ⟨s, hfind, hstat⟩ := hs etS payS st hp
  unfold syncRow at h
  rcases hp' : parseRow r with _ | ⟨etS', payS', st'⟩
  · rw [hp'] at h
    cases h
  · rw [hp'] at h
    simp only at h
    rcases hf' : findSession r.plate etS' db with _ | ex
    · rw [hf'] at h
      simp only [Option.some.injEq, Prod.mk.injEq] at h
      obtain ⟨h1, -, -⟩ := h
      subst h1
      refine ⟨s, ?_, hstat⟩
      unfold findSession at hfind ⊢
      simp only
      exact find?_append_of_some _ _ _ _ hfind
    · rw [hf'] at h
      simp only at h
      by_cases hc : (st' == 1 && ex.paymentStatus == 0) = true
      · rw [if_pos hc] at h
        simp only [Option.some.injEq, Prod.mk.injEq] at h
        obtain ⟨h1, -, -⟩ := h
        subst h1
        simp only [Bool.and_eq_true, beq_iff_eq] at hc
        have hinv : ∀ t : Session,
            ((fun t => t.plate == q.plate && t.entryTime == etS)
              ((fun t => if t.id == ex.id then
                Session.mk t.id t.plate t.entryTime t.exitTime st' payS'
                  (calculate_payment_amount etS' payS')
                else t) t))
            = ((fun t => t.plate == q.plate && t.entryTime == etS) t) := by
          intro t
          by_cases hid : (t.id == ex.id) = true <;> simp [hid]
        unfold findSession at hfind ⊢
        simp only
        rw [find?_map_of_pred_invariant _ _ hinv, hfind]
        refine ⟨_, rfl, ?_⟩
        intro hst1
        by_cases hid : (s.id == ex.id) = true
        · simp [hid, hc.1]
        · simp only [hid]
          simp [hid]
          exact hstat hst1
      · rw [if_neg hc] at h
        simp only [Option.some.injEq, Prod.mk.injEq] at h
        obtain ⟨h1, -, -⟩ := h
        subst h1
        exact ⟨s, hfind, hstat⟩

theorem syncRow_noop (r : LogRow) (db : DBState)
    (hp : (parseRow r).isSome = true) (hs : RowSettled r db) :
    syncRow r db = some (db, false, false) := by
  rcases hpe : parseRow r with _ | ⟨etS, payS, st⟩
  · rw [hpe] at hp
    cases hp
  · obtain ⟨s, hfind, hstat⟩ := hs etS payS st hpe
    unfold syncRow
    rw [hpe]
    simp only
    rw [hfind]
    simp only
    have hc : ¬ (st == 1 && s.paymentStatus == 0) = true := by
      intro hcc
      simp only [Bool.and_eq_true, beq_iff_eq] at hcc
      exact hstat hcc.1 hcc.2
    rw [if_neg hc]

theorem syncRow_isSome_parse (r : LogRow) (db : DBState) (x : DBState × Bool × Bool)
    (h : syncRow r db = some x) : (parseRow r).isSome = true := by
  unfold syncRow at h
  rcases hp : parseRow r with _ | y
  · rw [hp] at h
    cases h
  · rfl

theorem syncRows_settles (l : List LogRow) (db db' : DBState) (i u : Nat)
    (h : syncRows l db = some (db', i, u)) :
    (∀ r ∈ l, RowSettled r db' ∧ (parseRow r).isSome = true)
      ∧ (∀ r, RowSettled r db → RowSettled r db') := by
  induction l generalizing db i u with
  | nil =>
    unfold syncRows at h
    simp only [Option.some.injEq, Prod.mk.injEq] at h
    obtain ⟨h1, -, -⟩ := h
    subst h1
    exact ⟨by simp, fun r hr => hr⟩
  | cons r rest ih =>
    unfold syncRows at h
    rcases h1 : syncRow r db with _ | ⟨db1, i1, u1⟩
    · rw [h1] at h
      cases h
    · rw [h1] at h
      simp only at h
      rcases h2 : syncRows rest db1 with _ | ⟨db2, is, us⟩
      · rw [h2] at h
        cases h
      · rw [h2] at h
        simp only [Option.some.injEq, Prod.mk.injEq] at h
        obtain ⟨hdb, -, -⟩ := h
        subst hdb
        obtain ⟨ih1, ih2⟩ := ih db1 is us h2
        refine ⟨?_, ?_⟩
        · intro q hq
          rcases List.mem_cons.mp hq with hq1 | hq2
          · subst hq1
            exact ⟨ih2 q (syncRow_settles q db db1 i1 u1 h1),
              syncRow_isSome_parse q db _ h1⟩
          · exact ih1 q hq2
        · intro q hqs
          exact ih2 q (syncRow_preserves q r db db1 i1 u1 h1 hqs)

theorem syncRows_noop (l : List LogRow) (db : DBState)
    (h : ∀ r ∈ l, RowSettled r db ∧ (parseRow r).isSome = true) :
    syncRows l db = some (db, 0, 0) := by
  induction l with
  | nil => rfl
  | cons r rest ih =>
    obtain ⟨hs, hp⟩ := h r (List.mem_cons_self _ _)
    unfold syncRows
    rw [syncRow_noop r db hp hs]
    simp only
    rw [ih (fun q hq => h q (List.mem_cons_of_mem _ hq))]
    simp

theorem sync_csv_to_db_idempotent (rows : List LogRow) (db : DBState) :
    sync_csv_to_db rows (sync_csv_to_db rows db).1
      = ((sync_csv_to_db rows db).1, 0, 0) := by
  unfold sync_csv_to_db
  rcases h : syncRows rows db with _ | ⟨db1, i1, u1⟩
  · simp only [Option.getD_none]
    rw [h]
    rfl
  · simp only [Option.getD_some]
    obtain ⟨h1, -⟩ := syncRows_settles rows db db1 i1 u1 h
    rw [syncRows_noop rows db1 (fun r hr => h1 r hr)]
    rfl

theorem syncRow_insert_update_conditions (r : LogRow) (db2 db2' : DBState)
    (i2 u2 : Bool) (hsr : syncRow r db2 = some (db2', i2, u2)) :
    (i2 = true →
        ∃ etS payS st, parseRow r = some (etS, payS, st)
          ∧ findSession r.plate etS db2 = none)
      ∧ (u2 = true →
        ∃ etS payS st s, parseRow r = some (etS, payS, st)
          ∧ findSession r.plate etS db2 = some s
          ∧ st = 1 ∧ s.paymentStatus = 0) := by
  unfold syncRow at hsr
  rcases hp : parseRow r with _ | ⟨etS, payS, st⟩
  · rw [hp] at hsr
    cases hsr
  · rw [hp] at hsr
    simp only at hsr
    rcases hf : findSession r.plate etS db2 with _ | ex
    · rw [hf] at hsr
      simp only [Option.some.injEq, Prod.mk.injEq] at hsr
      obtain ⟨-, hi, hu⟩ := hsr
      constructor
      · intro
        exact ⟨etS, payS, st, rfl, hf⟩
      · intro hu2
        rw [← hu] at hu2
        cases hu2
    · rw [hf] at hsr
      simp only at hsr
      by_cases hc : (st == 1 && ex.paymentStatus == 0) = true
      · rw [if_pos hc] at hsr
        simp only [Option.some.injEq, Prod.mk.injEq] at hsr
        obtain ⟨-, hi, hu⟩ := hsr
        simp only [Bool.and_eq_true, beq_iff_eq] at hc
        constructor
        · intro hi2
          rw [← hi] at hi2
          cases hi2
        · intro
          exact ⟨etS, payS, st, ex, rfl, hf, hc.1, hc.2⟩
      · rw [if_neg hc] at hsr
        simp only [Option.some.injEq, Prod.mk.injEq] at hsr
        obtain ⟨-, hi, hu⟩ := hsr
        constructor
        · intro hi2
          rw [← hi] at hi2
          cases hi2
        · intro hu2
          rw [← hu] at hu2
          cases hu2

/-- C5: the Reconciler merge is idempotent — replaying `sync_csv_to_db` on the
store produced by a first pass performs no insert and no update and leaves the
store unchanged — and each pass inserts a record only when no session with the
same plate and entry time exists, and updates one only when the log row says
paid while the first matching stored session says unpaid. -/
theorem sync_csv_to_db_idempotent_merge (rows : List LogRow) (db : DBState) :
    (sync_csv_to_db rows (sync_csv_to_db rows db).1
        = ((sync_csv_to_db rows db).1, 0, 0))
      ∧ ∀ r db2 db2' i2 u2, syncRow r db2 = some (db2', i2, u2) →
          ((i2 = true →
              ∃ etS payS st, parseRow r = some (etS, payS, st)
                ∧ findSession r.plate etS db2 = none)
            ∧ (u2 = true →
              ∃ etS payS st s, parseRow r = some (etS, payS, st)
                ∧ findSession r.plate etS db2 = some s
                ∧ st = 1 ∧ s.paymentStatus = 0)) :=
  ⟨sync_csv_to_db_idempotent rows db,
    fun r db2 db2' i2 u2 hsr =>
      syncRow_insert_update_conditions r db2 db2' i2 u2 hsr⟩

theorem sync_csv_to_db_idempotent_merge_witness :
    (sync_csv_to_db [⟨"RAB123C", "0", "2024-01-01 10:00:00", ""⟩]
        (sync_csv_to_db [⟨"RAB123C", "0", "2024-01-01 10:00:00", ""⟩]
          ⟨[], 0⟩).1
      = ((sync_csv_to_db [⟨"RAB123C", "0", "2024-01-01 10:00:00", ""⟩]
          ⟨[], 0⟩).1, 0, 0))
      ∧ (∃ etS payS st,
          parseRow ⟨"RAB123C", "0", "2024-01-01 10:00:00", ""⟩
              = some (etS, payS, st)
            ∧ findSession "RAB123C" etS ⟨[], 0⟩ = none) :=
  ⟨(sync_csv_to_db_idempotent_merge
      [⟨"RAB123C", "0", "2024-01-01 10:00:00", ""⟩] ⟨[], 0⟩).1,
    (((sync_csv_to_db_idempotent_merge
        [⟨"RAB123C", "0", "2024-01-01 10:00:00", ""⟩] ⟨[], 0⟩).2
      ⟨"RAB123C", "0", "2024-01-01 10:00:00", ""⟩ ⟨[], 0⟩
      ⟨[⟨0, "RAB123C", PyDateTime.toSecs ⟨2024, 1, 1, 10, 0, 0⟩, none, 0,
        none, none⟩], 1⟩ true false (by decide)).1 rfl)⟩

/-! ## The tag-read protocol: claim C6 -/

theorem waitReady_iff (d : Nat) (l : List (Nat × String)) :
    waitReady d l = true ↔
      ∃ pre t2 l2 post, l = pre ++ (t2, l2) :: post
        ∧ (∀ e ∈ pre, e.1 < d ∧ pyStrip e.2.data ≠ "READY".data)
        ∧ t2 < d ∧ pyStrip l2.data = "READY".data := by
  induction l with
  | nil =>
    constructor
    · intro h
      cases h
    · rintro ⟨pre, t2, l2, post, heq, -⟩
      cases pre <;> simp at heq
  | cons e rest ih =>
    rcases e with ⟨t, line⟩
    by_cases ht : t < d
    · by_cases hr : pyStrip line.data = "READY".data
      · rw [waitReady, if_pos ht, if_pos hr]
        constructor
        · intro _
          exact ⟨[], t, line, rest, rfl, by simp, ht, hr⟩
        · intro _
          rfl
      · rw [waitReady, if_pos ht, if_neg hr]
        rw [ih]
        constructor
        · rintro ⟨pre, t2, l2, post, heq, hpre, ht2, hl2⟩
          exact ⟨(t, line) :: pre, t2, l2, post, by rw [heq, List.cons_append], by
            rintro f hf
            rcases List.mem_cons.mp hf with h1 | h2
            · subst h1
              exact ⟨ht, hr⟩
            · exact hpre f h2, ht2, hl2⟩
        · rintro ⟨pre, t2, l2, post, heq, hpre, ht2, hl2⟩
          rcases pre with _ | ⟨p0, pre'⟩
          · simp only [List.nil_append, List.cons.injEq] at heq
            obtain ⟨heq1, -⟩ := heq
            cases heq1
            exact absurd hl2 hr
          · simp only [List.cons_append, List.cons.injEq] at heq
            obtain ⟨-, heq2⟩ := heq
            exact ⟨pre', t2, l2, post, heq2,
              fun f hf => hpre f (List.mem_cons_of_mem _ hf), ht2, hl2⟩
    · rw [waitReady, if_neg ht]
      constructor
      · intro h
        cases h
      · rintro ⟨pre, t2, l2, post, heq, hpre, ht2, hl2⟩
        rcases pre with _ | ⟨p0, pre'⟩
        · simp only [List.nil_append, List.cons.injEq] at heq
          obtain ⟨heq1, -⟩ := heq
          cases heq1
          exact absurd ht2 ht
        · simp only [List.cons_append, List.cons.injEq] at heq
          obtain ⟨heq1, -⟩ := heq
          have := (hpre p0 (List.mem_cons_self _ _)).1
          rw [← heq1] at this
          exact absurd this ht

theorem read_rfid_card_iff (evs : List (Nat × String)) (p : String) (b : Int) :
    read_rfid_card evs = some (p, b) ↔
      ∃ pre t line post, evs = pre ++ (t, line) :: post
        ∧ (∀ e ∈ pre, e.1 < 5 ∧ parseCardLine e.2 = none)
        ∧ t < 5 ∧ parseCardLine line = some (p, b)
        ∧ waitReady (t + 2) post = true := by
  induction evs with
  | nil =>
    constructor
    · intro h
      cases h
    · rintro ⟨pre, t, line, post, heq, -⟩
      cases pre <;> simp at heq
  | cons e rest ih =>
    rcases e with ⟨t0, line0⟩
    by_cases ht : t0 < 5
    · rcases hp : parseCardLine line0 with _ | pb
      · rw [read_rfid_card, if_pos ht, hp]
        simp only
        rw [ih]
        constructor
        · rintro ⟨pre, t, line, post, heq, hpre, ht1, hline, hrd⟩
          exact ⟨(t0, line0) :: pre, t, line, post,
            by rw [heq, List.cons_append], by
              rintro f hf
              rcases List.mem_cons.mp hf with h1 | h2
              · subst h1
                exact ⟨ht, hp⟩
              · exact hpre f h2, ht1, hline, hrd⟩
        · rintro ⟨pre, t, line, post, heq, hpre, ht1, hline, hrd⟩
          rcases pre with _ | ⟨p0, pre'⟩
          · simp only [List.nil_append, List.cons.injEq] at heq
            obtain ⟨heq1, -⟩ := heq
            cases heq1
            rw [hp] at hline
            cases hline
          · simp only [List.cons_append, List.cons.injEq] at heq
            obtain ⟨-, heq2⟩ := heq
            exact ⟨pre', t, line, post, heq2,
              fun f hf => hpre f (List.mem_cons_of_mem _ hf), ht1, hline, hrd⟩
      · rw [read_rfid_card, if_pos ht, hp]
        simp only
        rcases pb with ⟨pp, bb⟩
        by_cases hrd : waitReady (t0 + 2) rest = true
        · rw [if_pos hrd]
          constructor
          · intro h
            injection h with h
            cases h
            exact ⟨[], t0, line0, rest, rfl, by simp, ht, hp, hrd⟩
          · rintro ⟨pre, t, line, post, heq, hpre, ht1, hline, hrd2⟩
            rcases pre with _ | ⟨p0, pre'⟩
            · simp only [List.nil_append, List.cons.injEq] at heq
              obtain ⟨heq1, heq3⟩ := heq
              cases heq1
              subst heq3
              rw [hp] at hline
              exact hline
            · simp only [List.cons_append, List.cons.injEq] at heq
              obtain ⟨heq1, -⟩ := heq
              have := (hpre p0 (List.mem_cons_self _ _)).2
              rw [← heq1] at this
              rw [hp] at this
              cases this
        · rw [if_neg hrd]
          constructor
          · intro h
            cases h
          · rintro ⟨pre, t, line, post, heq, hpre, ht1, hline, hrd2⟩
            rcases pre with _ | ⟨p0, pre'⟩
            · simp only [List.nil_append, List.cons.injEq] at heq
              obtain ⟨heq1, heq3⟩ := heq
              cases heq1
              subst heq3
              exact absurd hrd2 hrd
            · simp only [List.cons_append, List.cons.injEq] at heq
              obtain ⟨heq1, -⟩ := heq
              have := (hpre p0 (List.mem_cons_self _ _)).2
              rw [← heq1] at this
              rw [hp] at this
              cases this
    · rw [read_rfid_card, if_neg ht]
      constructor
      · intro h
        cases h
      · rintro ⟨pre, t, line, post, heq, hpre, ht1, hline, hrd2⟩
        rcases pre with _ | ⟨p0, pre'⟩
        · simp only [List.nil_append, List.cons.injEq] at heq
          obtain ⟨heq1, -⟩ := heq
          cases heq1
          exact absurd ht1 ht
        · simp only [List.cons_append, List.cons.injEq] at heq
          obtain ⟨heq1, -⟩ := heq
          have := (hpre p0 (List.mem_cons_self _ _)).1
          rw [← heq1] at this
          exact absurd this ht

/-- C6 (amended): `read_rfid_card` accepts a tag read exactly when a line that
parses as card data (comma-separated, not debug framing, balance an integer
after stripping non-printable characters — negative values included, which is
where the original claim fails, see the counterexample) arrives before the 5-
unit deadline with no earlier parsable line, followed by a line stripping to
`READY` before 2 units after the parse; in every other case it returns no
data. -/
theorem read_rfid_card_characterization (evs : List (Nat × String))
    (p : String) (b : Int) :
    read_rfid_card evs = some (p, b) ↔
      ∃ pre t line post, evs = pre ++ (t, line) :: post
        ∧ (∀ e ∈ pre, e.1 < 5 ∧ parseCardLine e.2 = none)
        ∧ t < 5 ∧ parseCardLine line = some (p, b)
        ∧ ∃ pre2 t2 l2 post2, post = pre2 ++ (t2, l2) :: post2
            ∧ (∀ e ∈ pre2, e.1 < t + 2 ∧ pyStrip e.2.data ≠ "READY".data)
            ∧ t2 < t + 2 ∧ pyStrip l2.data = "READY".data := by
  rw [read_rfid_card_iff]
  constructor
  · rintro ⟨pre, t, line, post, heq, hpre, ht, hline, hrd⟩
    exact ⟨pre, t, line, post, heq, hpre, ht, hline,
      (waitReady_iff (t + 2) post).mp hrd⟩
  · rintro ⟨pre, t, line, post, heq, hpre, ht, hline, hrd⟩
    exact ⟨pre, t, line, post, heq, hpre, ht, hline,
      (waitReady_iff (t + 2) post).mpr hrd⟩

/-- C6 counterexample: a card line with a negative balance (`-50`, printable
minus sign, `int()` accepts it) followed by `READY` is accepted by
`read_rfid_card` — the claim requires a non-negative balance and "no data" in
every other case. -/
theorem read_rfid_card_accepts_negative_balance :
    read_rfid_card [(0, "RAB123C,-50"), (1, "READY")]
        = some ("RAB123C", -50)
      ∧ (-50 : Int) < 0 := by
  decide

/-! ## Plate validation: claim C7 -/

/-- C7 (amended): a raw recognized string is accepted exactly when it contains
the marker `RA` and the 7-character window *starting at the first occurrence
of the marker* (so the marker is part of the plate, not followed by 7 more
characters) exists and matches `[A-Z]{3}[0-9]{3}[A-Z]`; the accepted candidate
is that window, and discarded strings leave the candidate buffer unchanged. -/
theorem plate_validation_characterization :
    (∀ text c, plateCandidate text = some c ↔
      (listContains "RA".data text = true
        ∧ c = (text.drop (listFindIdx "RA".data text)).take 7
        ∧ c.length = 7
        ∧ (c.take 3).all isUpperAlpha = true
        ∧ ((c.drop 3).take 3).all isDigitChar = true
        ∧ (c.drop 6).all isUpperAlpha = true))
    ∧ (∀ (buf : List String) (s : String),
        plateCandidate s.data = none → bufferStep buf s = buf) := by
  constructor
  · intro text c
    unfold plateCandidate
    by_cases h1 : listContains "RA".data text = true
    · rw [if_pos h1]
      by_cases h2 : 7 ≤ (text.drop (listFindIdx "RA".data text)).length
      · rw [if_pos h2]
        by_cases h3 : ((((text.drop (listFindIdx "RA".data text)).take
              7).take 3).all isUpperAlpha
            && ((((text.drop (listFindIdx "RA".data text)).take 7).drop
              3).take 3).all isDigitChar
            && (((text.drop (listFindIdx "RA".data text)).take 7).drop
              6).all isUpperAlpha) = true
        · rw [if_pos h3]
          simp only [Bool.and_eq_true] at h3
          obtain ⟨⟨h3a, h3b⟩, h3c⟩ := h3
          constructor
          · intro hc
            injection hc with hc
            subst hc
            refine ⟨h1, rfl, ?_, h3a, h3b, h3c⟩
            rw [List.length_take]
            omega
          · rintro ⟨-, hc, -⟩
            rw [hc]
        · rw [if_neg h3]
          constructor
          · intro hc
            cases hc
          · rintro ⟨-, hc, -, ha, hb, hcc⟩
            subst hc
            exact absurd (by simp [ha, hb, hcc]) h3
      · rw [if_neg h2]
        constructor
        · intro hc
          cases hc
        · rintro ⟨-, hc, hlen, -⟩
          subst hc
          rw [List.length_take] at hlen
          omega
    · rw [if_neg h1]
      constructor
      · intro hc
        cases hc
      · rintro ⟨hc, -⟩
        exact absurd hc h1
  · intro buf s h
    unfold bufferStep
    rw [h]

/-- C7 counterexample to the claim as written: `RAABC123D` contains the
2-letter marker `RA` and the 7 characters following it, `ABC123D`, match
`[A-Z]{3}[0-9]{3}[A-Z]` — yet the code discards it (it validates the window
*starting at* the marker, `RAABC12`, whose digit block `BC1` fails). -/
theorem plate_marker_window_counterexample :
    specPlateRule "RAABC123D".data = true
      ∧ plateCandidate "RAABC123D".data = none
      ∧ bufferStep [] "RAABC123D" = [] := by
  decide

theorem plate_validation_characterization_witness :
    bufferStep ["RAB123C"] "ZZZ" = ["RAB123C"]
      ∧ plateCandidate "XXRAB123CYY".data = some "RAB123C".data :=
  ⟨plate_validation_characterization.2 ["RAB123C"] "ZZZ" (by decide),
    (plate_validation_characterization.1 "XXRAB123CYY".data
      "RAB123C".data).mpr (by decide)⟩

/-! ## The plate voter: claim C8 -/

theorem firstIdx_cons (y a : String) (t : List String) :
    firstIdx y (a :: t) = if (a == y) = true then 0 else firstIdx y t + 1 :=
  rfl

theorem firstIdx_cons_self (v : String) (l : List String) :
    firstIdx v (v :: l) = 0 := by
  rw [firstIdx_cons, if_pos (by simp)]

theorem firstIdx_append_not_mem (y : String) (l1 rest : List String)
    (h : y ∉ l1) : firstIdx y (l1 ++ rest) = l1.length + firstIdx y rest := by
  induction l1 with
  | nil => simp
  | cons a l1' ih =>
    have hay : ¬ (a == y) = true := by
      simp only [beq_iff_eq]
      intro he
      exact h (he ▸ List.mem_cons_self _ _)
    rw [List.cons_append, firstIdx_cons, if_neg hay]
    rw [ih (fun hm => h (List.mem_cons_of_mem _ hm))]
    simp only [List.length_cons]
    omega

theorem foldl_best_spec (L : List String) (rest : List String) : ∀ (a r : String),
    rest.foldl (fun best y => if L.count best < L.count y then y else best) a
        = r →
      (r = a ∧ ∀ y ∈ rest, L.count y ≤ L.count a)
      ∨ (∃ l1 l2, rest = l1 ++ r :: l2 ∧ L.count a < L.count r
          ∧ (∀ y ∈ l1, L.count y < L.count r)
          ∧ (∀ y ∈ l2, L.count y ≤ L.count r)) := by
  induction rest with
  | nil =>
    intro a r h
    exact Or.inl ⟨h.symm, by simp⟩
  | cons y rest' ih =>
    intro a r h
    rw [List.foldl_cons] at h
    by_cases hlt : L.count a < L.count y
    · rw [if_pos hlt] at h
      rcases ih y r h with ⟨hr, hall⟩ | ⟨l1, l2, heq, hlt2, h1, h2⟩
      · subst hr
        exact Or.inr ⟨[], rest', by simp, hlt, by simp, hall⟩
      · refine Or.inr ⟨y :: l1, l2, by rw [heq, List.cons_append],
          lt_trans hlt hlt2, ?_, h2⟩
        intro z hz
        rcases List.mem_cons.mp hz with h0 | h0
        · subst h0
          exact hlt2
        · exact h1 z h0
    · rw [if_neg hlt] at h
      rcases ih a r h with ⟨hr, hall⟩ | ⟨l1, l2, heq, hlt2, h1, h2⟩
      · subst hr
        refine Or.inl ⟨rfl, ?_⟩
        intro z hz
        rcases List.mem_cons.mp hz with h0 | h0
        · subst h0
          exact le_of_not_lt hlt
        · exact hall z h0
      · refine Or.inr ⟨y :: l1, l2, by rw [heq, List.cons_append],
          hlt2, ?_, h2⟩
        intro z hz
        rcases List.mem_cons.mp hz with h0 | h0
        · subst h0
          exact lt_of_le_of_lt (le_of_not_lt hlt) hlt2
        · exact h1 z h0

theorem counterMostCommon_spec (l : List String) (v : String)
    (h : counterMostCommon l = some v) :
    v ∈ l ∧ (∀ y ∈ l, l.count y ≤ l.count v)
      ∧ ∀ y ∈ l, l.count y = l.count v → firstIdx v l ≤ firstIdx y l := by
  rcases l with _ | ⟨x, xs⟩
  · cases h
  · unfold counterMostCommon at h
    injection h with h
    rw [List.foldl_cons, if_neg (lt_irrefl _)] at h
    rcases foldl_best_spec (x :: xs) xs x v h with
      ⟨hr, hall⟩ | ⟨l1, l2, heq, hlt, h1, h2⟩
    · subst hr
      refine ⟨List.mem_cons_self _ _, ?_, ?_⟩
      · intro z hz
        rcases List.mem_cons.mp hz with h0 | h0
        · subst h0
          exact le_refl _
        · exact hall z h0
      · intro z hz hcnt
        rw [firstIdx_cons_self]
        omega
    · have hvx : v ≠ x := by
        intro he
        rw [he] at hlt
        exact lt_irrefl _ hlt
      have hvl1 : v ∉ l1 := by
        intro hm
        exact lt_irrefl _ (h1 v hm)
      refine ⟨?_, ?_, ?_⟩
      · rw [heq]
        exact List.mem_cons_of_mem _
          (List.mem_append.mpr (Or.inr (List.mem_cons_self _ _)))
      · intro z hz
        rcases List.mem_cons.mp hz with h0 | h0
        · subst h0
          exact le_of_lt hlt
        · rw [heq] at h0
          rcases List.mem_append.mp h0 with h0 | h0
          · exact le_of_lt (h1 z h0)
          · rcases List.mem_cons.mp h0 with h0 | h0
            · subst h0
              exact le_refl _
            · exact h2 z h0
      · intro z hz hcnt
        have hzx : z ≠ x := by
          intro he
          rw [he] at hcnt
          omega
        have hzl1 : z ∉ l1 := by
          intro hm
          have := h1 z hm
          omega
        have hxv : ¬ (x == v) = true := by
          simp only [beq_iff_eq]
          intro he
          exact hvx he.symm
        have hxz : ¬ (x == z) = true := by
          simp only [beq_iff_eq]
          intro he
          exact hzx he.symm
        rw [heq, firstIdx_cons, firstIdx_cons, if_neg hxv, if_neg hxz]
        rw [firstIdx_append_not_mem v l1 _ hvl1,
          firstIdx_append_not_mem z l1 _ hzl1]
        rw [firstIdx_cons_self]
        omega

theorem counterMostCommon_isSome (l : List String) (h : l ≠ []) :
    (counterMostCommon l).isSome = true := by
  rcases l with _ | ⟨x, xs⟩
  · exact absurd rfl h
  · rfl

/-- C8: the voter emits exactly when the buffer reaches the threshold (2 on
the entry path, 3 on the exit path), the emitted candidate is the
most-frequent element of the buffer with ties broken by first occurrence, and
the buffer is cleared; the claim's example run with threshold 2 emits
`RAB123C` after the first two insertions. -/
theorem plate_voter_props :
    (∀ l v, counterMostCommon l = some v →
       v ∈ l ∧ (∀ y ∈ l, l.count y ≤ l.count v)
         ∧ ∀ y ∈ l, l.count y = l.count v → firstIdx v l ≤ firstIdx y l)
    ∧ (∀ thr buf (c : String),
        ((voterStep thr buf c).2.isSome = true ↔ thr ≤ buf.length + 1)
        ∧ (thr ≤ buf.length + 1 →
            voterStep thr buf c = ([], counterMostCommon (buf ++ [c]))))
    ∧ runVoter 2 [] ["RAB123C", "RAB123C", "RAX999Z"]
        = (["RAX999Z"], ["RAB123C"])
    ∧ runVoter 3 [] ["RAB123C", "RAX999Z", "RAB123C"] = ([], ["RAB123C"]) := by
  refine ⟨counterMostCommon_spec, ?_, by decide, by decide⟩
  intro thr buf c
  unfold voterStep
  simp only [List.length_append, List.length_cons, List.length_nil]
  by_cases hthr : thr ≤ buf.length + 1
  · rw [if_pos (by omega : thr ≤ buf.length + (0 + 1))]
    refine ⟨⟨fun _ => hthr, fun _ => ?_⟩, fun _ => rfl⟩
    exact counterMostCommon_isSome _ (by simp)
  · rw [if_neg (by omega : ¬ thr ≤ buf.length + (0 + 1))]
    refine ⟨⟨fun h => ?_, fun h => absurd h hthr⟩, fun h => absurd h hthr⟩
    simp at h

theorem plate_voter_props_witness :
    voterStep 2 ["RAB123C"] "RAB123C"
      = ([], counterMostCommon (["RAB123C"] ++ ["RAB123C"])) :=
  (plate_voter_props.2.1 2 ["RAB123C"] "RAB123C").2 (by decide)

/-! ## Exit authorization: claim C10 -/

theorem ipcStatus_iff (latest : List String) :
    ipcStatus latest = true ↔
      ∃ s, latest.get? 1 = some s ∧ pyInt s.data = some 1 := by
  unfold ipcStatus
  rcases hget : latest.get? 1 with _ | s
  · constructor
    · intro h
      cases h
    · rintro ⟨s, hg, -⟩
      cases hg
  · show (match pyInt s.data with
        | none => false
        | some v => v == 1) = true ↔ _
    rcases hint : pyInt s.data with _ | v
    · constructor
      · intro h
        cases h
      · rintro ⟨s2, hg, hi⟩
        injection hg with hg
        subst hg
        rw [hint] at hi
        cases hi
    · show (v == 1) = true ↔ _
      simp only [beq_iff_eq]
      constructor
      · intro h
        exact ⟨s, rfl, by rw [hint, h]⟩
      · rintro ⟨s2, hg, hi⟩
        injection hg with hg
        subst hg
        rw [hint] at hi
        exact Option.some.inj hi

/-- C10: when every data row is nonempty (an empty row makes the blanket
handler return `False` for every plate), `is_payment_complete` returns true
iff the last row whose first cell equals the plate has a status parsing to 1 —
earlier unpaid rows never block the exit; a plate with no rows yields false,
and a file-read failure yields false. -/
theorem is_payment_complete_latest_row (hdr : List String)
    (rows : List (List String)) (plate : String)
    (hne : ∀ r ∈ rows, r ≠ []) :
    (is_payment_complete (some (hdr :: rows)) plate = true ↔
      ∃ latest, (rows.filter (fun r => r.headD "" == plate)).getLast?
          = some latest
        ∧ ∃ s, latest.get? 1 = some s ∧ pyInt s.data = some 1)
    ∧ (rows.filter (fun r => r.headD "" == plate) = [] →
        is_payment_complete (some (hdr :: rows)) plate = false)
    ∧ is_payment_complete none plate = false := by
  have hbody : is_payment_complete (some (hdr :: rows)) plate
      = ipcRows rows plate := rfl
  have hany : rows.any List.isEmpty = false := by
    rw [List.any_eq_false]
    intro r hr
    simp only [List.isEmpty_iff]
    exact hne r hr
  rw [hbody]
  unfold ipcRows
  rw [hany]
  simp only [Bool.false_eq_true, if_false]
  refine ⟨?_, ?_, rfl⟩
  · rcases hlast : (rows.filter (fun r => r.headD "" == plate)).getLast?
        with _ | latest
    · rw [hlast]
      constructor
      · intro h
        cases h
      · rintro ⟨latest, hl, -⟩
        cases hl
    · rw [hlast]
      show ipcStatus latest = true ↔ _
      rw [ipcStatus_iff]
      constructor
      · intro h
        exact ⟨latest, rfl, h⟩
      · rintro ⟨latest2, hl, hs⟩
        injection hl with hl
        subst hl
        exact hs
  · intro hfil
    rw [hfil]
    rfl

theorem is_payment_complete_latest_row_witness :
    (is_payment_complete (some ([["h1", "h2", "h3", "h4"],
        ["RAB123C", "0", "a", ""], ["RAB123C", "1", "b", "c"]])) "RAB123C"
        = true ↔
      ∃ latest, ([["RAB123C", "0", "a", ""],
            ["RAB123C", "1", "b", "c"]].filter
            (fun r => r.headD "" == "RAB123C")).getLast? = some latest
        ∧ ∃ s, latest.get? 1 = some s ∧ pyInt s.data = some 1)
      ∧ ([["RAB123C", "0", "a", ""], ["RAB123C", "1", "b", "c"]].filter
          (fun r => r.headD "" == "RAB123C") = [] →
        is_payment_complete (some ([["h1", "h2", "h3", "h4"],
          ["RAB123C", "0", "a", ""], ["RAB123C", "1", "b", "c"]])) "RAB123C"
          = false)
      ∧ is_payment_complete none "RAB123C" = false :=
  is_payment_complete_latest_row ["h1", "h2", "h3", "h4"]
    [["RAB123C", "0", "a", ""], ["RAB123C", "1", "b", "c"]] "RAB123C"
    (by decide)
